import Mathlib

/-!
Verification of the core of the qwen3-tts-ui application (src/main.py):
the capture recorder (`_stop_recording`), the sample library
(`list_samples`, `_save_ref_text`, `_on_sample_changed`,
`_refresh_samples`), and the generation orchestrator (`_on_say`,
`_generate`, `_on_mode_changed`).

The Python code is shallowly embedded: filesystem state is passed
explicitly, numpy float32 buffers are modelled as lists of rationals,
Qt signal emissions are collected into lists, and the external
collaborators (model, sound device) are parameters describing what they
return or raise for the request at hand.
-/

namespace QwenTTS

/-! ### Python `str.strip` -/

/-- Strip of a character list: drop leading whitespace, then drop trailing
whitespace (embedding of Python `str.strip()` on the code-point list). -/
def stripL (l : List Char) : List Char :=
  ((l.dropWhile Char.isWhitespace).reverse.dropWhile Char.isWhitespace).reverse

/-- Python `str.strip()` on a Lean string, acting on its code points. -/
def pyStrip (s : String) : String :=
  String.mk (stripL s.data)

theorem dropWhile_headq_false (p : Char → Bool) (l : List Char) :
    ∀ c, (l.dropWhile p).head? = some c → p c = false := by
  induction l with
  | nil => intro c h; simp at h
  | cons a t ih =>
    intro c h
    by_cases hp : p a
    · rw [List.dropWhile_cons] at h
      simp [hp] at h
      exact ih c h
    · rw [List.dropWhile_cons] at h
      simp [hp] at h
      subst h
      exact Bool.not_eq_true _ ▸ (by simpa using hp)

theorem dropWhile_eq_self_of_headq (p : Char → Bool) (l : List Char)
    (h : ∀ c, l.head? = some c → p c = false) : l.dropWhile p = l := by
  cases l with
  | nil => rfl
  | cons a t =>
    rw [List.dropWhile_cons]
    simp [h a rfl]

theorem exists_append_dropWhile (p : Char → Bool) (l : List Char) :
    ∃ t, l = t ++ l.dropWhile p := by
  induction l with
  | nil => exact ⟨[], rfl⟩
  | cons a t ih =>
    by_cases hp : p a
    · obtain ⟨u, hu⟩ := ih
      refine ⟨a :: u, ?_⟩
      rw [List.dropWhile_cons]
      simp [hp]
      exact hu
    · refine ⟨[], ?_⟩
      rw [List.dropWhile_cons]
      simp [hp]

theorem stripL_idem (l : List Char) : stripL (stripL l) = stripL l := by
  unfold stripL
  have hdata : (((l.dropWhile Char.isWhitespace).reverse.dropWhile
      Char.isWhitespace).reverse).reverse.dropWhile Char.isWhitespace =
      ((l.dropWhile Char.isWhitespace).reverse.dropWhile Char.isWhitespace) := by
    rw [List.reverse_reverse]
    exact List.dropWhile_idempotent _ _
  have houter : ((l.dropWhile Char.isWhitespace).reverse.dropWhile
      Char.isWhitespace).reverse.dropWhile Char.isWhitespace =
      ((l.dropWhile Char.isWhitespace).reverse.dropWhile Char.isWhitespace).reverse := by
    apply dropWhile_eq_self_of_headq
    intro c hc
    obtain ⟨t, ht⟩ := exists_append_dropWhile Char.isWhitespace
      (l.dropWhile Char.isWhitespace).reverse
    have ha : l.dropWhile Char.isWhitespace =
        ((l.dropWhile Char.isWhitespace).reverse.dropWhile Char.isWhitespace).reverse
          ++ t.reverse := by
      have := congrArg List.reverse ht
      simpa using this
    apply dropWhile_headq_false Char.isWhitespace l c
    rw [ha]
    cases hbr : ((l.dropWhile Char.isWhitespace).reverse.dropWhile
        Char.isWhitespace).reverse with
    | nil => rw [hbr] at hc; simp at hc
    | cons x xs =>
      rw [hbr] at hc
      simp at hc
      simp [hc]
  rw [houter, hdata]

theorem pyStrip_idem (s : String) : pyStrip (pyStrip s) = pyStrip s :=
  congrArg String.mk (stripL_idem s.data)

/-! ### Lexicographic order on strings

Python's `sorted` compares strings lexicographically by code point; this
is embedded as a boolean strict order on the code-point lists. -/

/-- Strict lexicographic order on code-point lists (Python `<` on `str`). -/
def lexLtB : List Char → List Char → Bool
  | [], [] => false
  | [], _ :: _ => true
  | _ :: _, [] => false
  | a :: as, b :: bs =>
    if a < b then true else if b < a then false else lexLtB as bs

/-- Non-strict lexicographic order on strings (Python `<=` on `str`). -/
def strLeB (a b : String) : Bool := !(lexLtB b.data a.data)

theorem lexLtB_irrefl (l : List Char) : lexLtB l l = false := by
  induction l with
  | nil => rfl
  | cons a t ih => simp [lexLtB, lt_irrefl, ih]

theorem lexLtB_asymm : ∀ (a b : List Char), lexLtB a b = true → lexLtB b a = false := by
  intro a
  induction a with
  | nil =>
    intro b h
    cases b with
    | nil => simp [lexLtB] at h
    | cons c cs => rfl
  | cons x xs ih =>
    intro b h
    cases b with
    | nil => simp [lexLtB] at h
    | cons y ys =>
      by_cases hxy : x < y
      · simp [lexLtB, hxy, asymm hxy]
      · by_cases hyx : y < x
        · simp [lexLtB, hxy, hyx] at h
        · simp [lexLtB, hxy, hyx] at h ⊢
          exact ih ys h

theorem lexLtB_trans :
    ∀ (a b c : List Char), lexLtB a b = true → lexLtB b c = true → lexLtB a c = true := by
  intro a
  induction a with
  | nil =>
    intro b c h1 h2
    cases b with
    | nil => simp [lexLtB] at h1
    | cons y ys =>
      cases c with
      | nil => simp [lexLtB] at h2
      | cons z zs => rfl
  | cons x xs ih =>
    intro b c h1 h2
    cases b with
    | nil => simp [lexLtB] at h1
    | cons y ys =>
      cases c with
      | nil => simp [lexLtB] at h2
      | cons z zs =>
        by_cases hxy : x < y
        · by_cases hyz : y < z
          · simp [lexLtB, lt_trans hxy hyz]
          · by_cases hzy : z < y
            · simp [lexLtB, hyz, hzy] at h2
            · have hyzeq : y = z := le_antisymm (not_lt.mp hzy) (not_lt.mp hyz)
              subst hyzeq
              simp [lexLtB, hxy]
        · by_cases hyx : y < x
          · simp [lexLtB, hxy, hyx] at h1
          · have hxyeq : x = y := le_antisymm (not_lt.mp hyx) (not_lt.mp hxy)
            subst hxyeq
            simp [lexLtB, lt_irrefl] at h1
            by_cases hyz : x < z
            · simp [lexLtB, hyz]
            · by_cases hzy : z < x
              · simp [lexLtB, hyz, hzy] at h2
              · simp [lexLtB, hyz, hzy] at h2 ⊢
                exact ih ys zs h1 h2

theorem lexLtB_connex :
    ∀ (a b : List Char), lexLtB a b = false → lexLtB b a = false → a = b := by
  intro a
  induction a with
  | nil =>
    intro b h1 _
    cases b with
    | nil => rfl
    | cons c cs => simp [lexLtB] at h1
  | cons x xs ih =>
    intro b h1 h2
    cases b with
    | nil => simp [lexLtB] at h2
    | cons y ys =>
      by_cases hxy : x < y
      · simp [lexLtB, hxy] at h1
      · by_cases hyx : y < x
        · simp [lexLtB, hyx] at h2
        · have hxyeq : x = y := le_antisymm (not_lt.mp hyx) (not_lt.mp hxy)
          subst hxyeq
          simp [lexLtB, lt_irrefl] at h1 h2
          rw [ih ys h1 h2]

theorem string_data_inj {a b : String} (h : a.data = b.data) : a = b :=
  congrArg String.mk h

theorem strLeB_refl (a : String) : strLeB a a = true := by
  simp [strLeB, lexLtB_irrefl]

theorem strLeB_total {a b : String} (h : strLeB a b = false) : strLeB b a = true := by
  simp [strLeB] at h ⊢
  exact lexLtB_asymm _ _ h

theorem strLeB_trans {a b c : String} (h1 : strLeB a b = true) (h2 : strLeB b c = true) :
    strLeB a c = true := by
  simp [strLeB] at h1 h2 ⊢
  by_cases hab : lexLtB a.data b.data = true
  · by_contra hca
    rw [Bool.not_eq_false] at hca
    have hcb := lexLtB_trans _ _ _ hca hab
    rw [h2] at hcb
    exact Bool.false_ne_true hcb
  · have hd : a.data = b.data := lexLtB_connex _ _ (by simpa using hab) h1
    rw [← hd] at h2
    exact h2

theorem strLeB_antisymm {a b : String} (h1 : strLeB a b = true) (h2 : strLeB b a = true) :
    a = b := by
  simp [strLeB] at h1 h2
  exact string_data_inj (lexLtB_connex _ _ h2 h1)

/-! ### Sorting (Python `sorted`) -/

/-- Insert a string into a lexicographically sorted list. -/
def insertSorted (x : String) : List String → List String
  | [] => [x]
  | y :: ys => if strLeB x y then x :: y :: ys else y :: insertSorted x ys

/-- Insertion sort by the lexicographic order: embedding of Python
`sorted` on a list of strings. -/
def sortStrings : List String → List String
  | [] => []
  | x :: xs => insertSorted x (sortStrings xs)

/-- A list is sorted when every element is `strLeB` every later one. -/
def strSorted (l : List String) : Prop :=
  l.Pairwise (fun a b => strLeB a b = true)

theorem mem_insertSorted (x a : String) :
    ∀ l : List String, a ∈ insertSorted x l ↔ a = x ∨ a ∈ l := by
  intro l
  induction l with
  | nil => simp [insertSorted]
  | cons y ys ih =>
    by_cases h : strLeB x y = true
    · simp [insertSorted, h]
    · simp only [insertSorted, if_neg h, List.mem_cons, ih]
      tauto

theorem pairwise_insertSorted (x : String) :
    ∀ l : List String, strSorted l → strSorted (insertSorted x l) := by
  intro l
  induction l with
  | nil => simp [insertSorted, strSorted]
  | cons y ys ih =>
    intro h
    simp only [strSorted, List.pairwise_cons] at h
    obtain ⟨hy, hys⟩ := h
    by_cases hxy : strLeB x y = true
    · have heq : insertSorted x (y :: ys) = x :: y :: ys := by
        simp [insertSorted, hxy]
      rw [heq]
      simp only [strSorted, List.pairwise_cons]
      refine ⟨?_, hy, hys⟩
      intro z hz
      rcases List.mem_cons.mp hz with rfl | hz'
      · exact hxy
      · exact strLeB_trans hxy (hy z hz')
    · have hyx : strLeB y x = true := strLeB_total (by simpa using hxy)
      have heq : insertSorted x (y :: ys) = y :: insertSorted x ys := by
        simp [insertSorted, hxy]
      rw [heq]
      simp only [strSorted, List.pairwise_cons]
      refine ⟨?_, ?_⟩
      · intro z hz
        rcases (mem_insertSorted x z ys).mp hz with rfl | hz'
        · exact hyx
        · exact hy z hz'
      · exact ih hys

theorem sorted_sortStrings : ∀ l : List String, strSorted (sortStrings l) := by
  intro l
  induction l with
  | nil => simp [sortStrings, strSorted]
  | cons x xs ih => exact pairwise_insertSorted x _ ih

theorem mem_sortStrings (a : String) :
    ∀ l : List String, a ∈ sortStrings l ↔ a ∈ l := by
  intro l
  induction l with
  | nil => simp [sortStrings]
  | cons x xs ih =>
    rw [sortStrings, mem_insertSorted, ih, List.mem_cons]

theorem sorted_getLast_ge :
    ∀ (l : List String), strSorted l → ∀ x ∈ l, ∀ hne : l ≠ [],
      strLeB x (l.getLast hne) = true := by
  intro l
  induction l with
  | nil => intro _ x hx; simp at hx
  | cons a t ih =>
    intro h x hx hne
    cases t with
    | nil =>
      have hxa : x = a := by simpa using hx
      subst hxa
      exact strLeB_refl x
    | cons b t' =>
      have h' : List.Pairwise (fun a b => strLeB a b = true) (a :: b :: t') := h
      have ha := (List.pairwise_cons.mp h').1
      have ht : strSorted (b :: t') := (List.pairwise_cons.mp h').2
      rw [List.getLast_cons (by simp)]
      rcases List.mem_cons.mp hx with rfl | hx'
      · exact ha _ (List.getLast_mem _)
      · exact ih ht x hx' (by simp)

theorem sorted_getLast_eq (l : List String) (h : strSorted l) (x : String)
    (hx : x ∈ l) (hmax : ∀ y ∈ l, strLeB y x = true) (hne : l ≠ []) :
    l.getLast hne = x :=
  strLeB_antisymm (hmax _ (List.getLast_mem hne)) (sorted_getLast_ge l h x hx hne)

/-! ### Sample library

`list_samples` globs `*.wav` in the samples directory and sorts the
names; the directory is modelled by an existence flag plus the list of
file names it holds. -/

/-- Suffix test on strings by code points (glob `*.wav` membership,
and Python `str.endswith`). -/
def hasSuffixB (suf s : String) : Bool :=
  decide (s.data.reverse.take suf.data.length = suf.data.reverse)

/-- Embedding of `list_samples` (src/main.py:182-185): empty when the
samples directory does not exist, otherwise the sorted `*.wav` names. -/
def list_samples (dirExists : Bool) (files : List String) : List String :=
  if dirExists then sortStrings (files.filter (fun f => hasSuffixB ".wav" f)) else []

/-- Embedding of `App._populate_samples` (src/main.py:349-356): the combo
box items are the sample names, or a single placeholder when there are
none. -/
def populate_samples (samples : List String) : List String :=
  if samples.isEmpty then ["(no samples — record one)"] else samples

/-- Embedding of `App._refresh_samples` (src/main.py:358-362): repopulate
and select the last combo item. -/
def refresh_selected (dirExists : Bool) (files : List String) : Option String :=
  (populate_samples (list_samples dirExists files)).getLast?

/-- Embedding of `App._save_ref_text` (src/main.py:364-369) for the
transcript file of the current sample, whose content is `store`
(`none` = file absent): the stripped text is written only when it is
non-empty and the samples directory exists. -/
def save_ref_text (dirExists : Bool) (store : Option String) (rawText : String) :
    Option String :=
  if pyStrip rawText ≠ "" ∧ dirExists = true then some (pyStrip rawText) else store

/-- Embedding of the read path of `App._on_sample_changed`
(src/main.py:371-376): the reference-text field receives the stripped
file content, or is cleared when the transcript file is missing. -/
def on_sample_changed (store : Option String) : String :=
  match store with
  | some content => pyStrip content
  | none => ""

/-! ### Capture recorder (`App._stop_recording`) -/

/-- A local timestamp with second resolution. -/
structure DateTime6 where
  year : ℕ
  month : ℕ
  day : ℕ
  hour : ℕ
  minute : ℕ
  second : ℕ

/-- Zero-pad a number to two digits (strftime `%m` etc.). -/
def pad2 (n : ℕ) : String :=
  if n < 10 then "0" ++ toString n else toString n

/-- Zero-pad a number to four digits (strftime `%Y`). -/
def pad4 (n : ℕ) : String :=
  if n < 10 then "000" ++ toString n
  else if n < 100 then "00" ++ toString n
  else if n < 1000 then "0" ++ toString n
  else toString n

/-- Embedding of `datetime.now().strftime("%Y%m%d_%H%M%S")`
(src/main.py:415). -/
def formatTs (t : DateTime6) : String :=
  pad4 t.year ++ pad2 t.month ++ pad2 t.day ++ "_" ++
    pad2 t.hour ++ pad2 t.minute ++ pad2 t.second

/-- Truncation toward zero of a rational, the float-to-integer cast used
by numpy `astype`. -/
def truncQ (x : ℚ) : ℤ :=
  if 0 ≤ x then ⌊x⌋ else ⌈x⌉

/-- Embedding of `(audio * 32767).astype(np.int16)` (src/main.py:419) on
one sample: scale by 32767, then C-cast (truncation toward zero).
Samples are modelled as exact rationals; the inputs used in concrete
statements are exactly representable in float32. -/
def sampleToInt16 (x : ℚ) : ℤ :=
  truncQ (x * 32767)

/-- The fixed capture/write sample rate (src/main.py:35). -/
def SAMPLE_RATE : ℕ := 24000

/-- The wave file written by `wave.open` plus the `wf.set*` calls and
`writeframes` (src/main.py:420-424). -/
structure WavFile where
  filename : String
  nchannels : ℕ
  sampwidth : ℕ
  framerate : ℕ
  samples : List ℤ

/-- Result of `App._stop_recording`: the file written (if any) and the
status label text. -/
structure StopResult where
  file : Option WavFile
  statusText : String

/-- Embedding of `App._stop_recording` (src/main.py:401-431). The
captured chunks are the `indata.copy()` buffers appended by the stream
callback, each a list of float samples. -/
def stop_recording (frames : List (List ℚ)) (now : DateTime6) : StopResult :=
  if frames.isEmpty then
    { file := none, statusText := "Ready" }
  else
    { file := some { filename := formatTs now ++ ".wav", nchannels := 1, sampwidth := 2,
                     framerate := SAMPLE_RATE,
                     samples := frames.flatten.map sampleToInt16 },
      statusText := "Saved " ++ (formatTs now ++ ".wav") }

/-! ### Generation orchestrator (`App._generate`) -/

/-- One audio segment produced by the model collaborator
(a `result` with `result.audio` and `result.sample_rate`). -/
structure Segment where
  audio : List ℚ
  sample_rate : ℕ

/-- A Qt signal emission from the worker: a status message or the done
signal. -/
inductive Sig where
  | status (text : String)
  | done
deriving DecidableEq

/-- The external collaborators' behaviour for one generation request:
which modes are in the model cache `self.models`, what the synthesis
call returns (or the message it raises), and whether playback raises. -/
structure GenEnv where
  models : List String
  synthResult : Except String (List Segment)
  playRaises : Option String

/-- What one `App._generate` run emits: the signal emissions in order and
the `sd.play` invocations with their buffer and sample rate. -/
structure GenOutcome where
  sigs : List Sig
  plays : List (List ℚ × ℕ)

/-- The message of the `KeyError` raised by `self.models[mode]` on a
cache miss, abstracted as the missing key (Python renders it quoted). -/
def keyErrorText (mode : String) : String := mode

/-- The message of the `ValueError` raised by `np.concatenate([])`. -/
def concatErrorText : String := "need at least one array to concatenate"

/-- Embedding of `App._generate` (src/main.py:543-578): look up the
cached model, synthesize, concatenate the chunks, take `result.sample_rate`
from the loop variable left by the last iteration, play, and emit the
terminal `done`; any raise is caught and emitted as `Error: ...`
followed by `done`. -/
def generate (env : GenEnv) (mode : String) : GenOutcome :=
  if mode ∈ env.models then
    match env.synthResult with
    | Except.error e => { sigs := [Sig.status ("Error: " ++ e), Sig.done], plays := [] }
    | Except.ok segs =>
      if segs.isEmpty then
        { sigs := [Sig.status ("Error: " ++ concatErrorText), Sig.done], plays := [] }
      else
        match env.playRaises with
        | some e =>
          { sigs := [Sig.status "Playing...", Sig.status ("Error: " ++ e), Sig.done],
            plays := [((segs.map Segment.audio).flatten,
                       (segs.getLast?.map Segment.sample_rate).getD 0)] }
        | none =>
          { sigs := [Sig.status "Playing...", Sig.done],
            plays := [((segs.map Segment.audio).flatten,
                       (segs.getLast?.map Segment.sample_rate).getD 0)] }
  else
    { sigs := [Sig.status ("Error: " ++ keyErrorText mode), Sig.done], plays := [] }

/-- Whether a signal is the terminal `done`. -/
def isDone : Sig → Bool
  | Sig.done => true
  | Sig.status _ => false

/-! ### Model cache (`App._load_model`, `App._on_mode_changed`) -/

/-- Cache update performed by `App._load_model` (src/main.py:434-438):
`self.models[mode] = model`, modelled on the key set. -/
def load_model (cache : List String) (mode : String) : List String :=
  if mode ∈ cache then cache else mode :: cache

/-- Embedding of `App._on_mode_changed` (src/main.py:450-457): returns
whether a loader thread is started for the newly selected mode. -/
def on_mode_changed (cache : List String) (mode : String) : Bool :=
  if mode ∈ cache then false else true

/-! ### Submission validation (`App._on_say`) -/

/-- The state read by `App._on_say`: the raw text field, whether the Say
button is enabled, the selected mode, whether the selected reference
sample file exists, and the raw reference-text field. -/
structure SayEnv where
  rawText : String
  sayEnabled : Bool
  mode : String
  sampleExists : Bool
  rawRefText : String

/-- Result of `App._on_say`: either no worker is started (with the
status message shown, if any), or a worker is dispatched with the
request parameters. -/
inductive SayResult where
  | noop (msg : Option String)
  | dispatch (mode text : String) (refText : Option String)
deriving DecidableEq

/-- Embedding of `App._on_say` (src/main.py:509-541). -/
def on_say (env : SayEnv) : SayResult :=
  if pyStrip env.rawText = "" ∨ env.sayEnabled = false then SayResult.noop none
  else if env.mode = "VoiceClone" then
    if env.sampleExists = false then SayResult.noop (some "Record a sample first")
    else if pyStrip env.rawRefText = "" then SayResult.noop (some "Enter reference text")
    else SayResult.dispatch env.mode (pyStrip env.rawText) (some (pyStrip env.rawRefText))
  else SayResult.dispatch env.mode (pyStrip env.rawText) none

/-- Whether `on_say` started a generation worker. -/
def isDispatched : SayResult → Bool
  | SayResult.noop _ => false
  | SayResult.dispatch _ _ _ => true

/-- The rejection condition of the amended C3 claim. -/
def rejectCond (env : SayEnv) : Prop :=
  pyStrip env.rawText = "" ∨
    (env.mode = "VoiceClone" ∧ (env.sampleExists = false ∨ pyStrip env.rawRefText = ""))

/-! ### Auxiliary lemmas -/

theorem hasSuffixB_txt_not_wav (name : String) (h : hasSuffixB ".txt" name = true) :
    hasSuffixB ".wav" name = false := by
  have h4 : name.data.reverse.take 4 = ['t', 'x', 't', '.'] := of_decide_eq_true h
  unfold hasSuffixB
  rw [decide_eq_false_iff_not]
  intro hw
  have hw4 : name.data.reverse.take 4 = ['v', 'a', 'w', '.'] := hw
  rw [h4] at hw4
  exact absurd hw4 (by decide)

theorem mem_list_samples_wav (d : Bool) (files : List String) (name : String)
    (h : name ∈ list_samples d files) : hasSuffixB ".wav" name = true := by
  unfold list_samples at h
  cases d with
  | false => simp at h
  | true =>
    rw [if_pos rfl, mem_sortStrings] at h
    exact (List.mem_filter.mp h).2

/-! ### Claim theorems -/

/-- C8: writing the transcript for a sample and reading it back yields
exactly the trimmed text written (write stores the stripped text; read
strips again, and stripping is idempotent). -/
theorem claim_C8 (store : Option String) (raw : String) (h : pyStrip raw ≠ "") :
    on_sample_changed (save_ref_text true store raw) = pyStrip raw := by
  have hsave : save_ref_text true store raw = some (pyStrip raw) := by
    unfold save_ref_text
    rw [if_pos ⟨h, rfl⟩]
  rw [hsave]
  exact pyStrip_idem raw

/-- Witness for C8 at a concrete sample text. -/
theorem claim_C8_witness :
    pyStrip "  hello  " ≠ "" ∧
      on_sample_changed (save_ref_text true none "  hello  ") = pyStrip "  hello  " := by
  have h : pyStrip "  hello  " ≠ "" := by decide
  exact ⟨h, claim_C8 none "  hello  " h⟩

/-- C9: writing a transcript is a no-op when the text is empty after
trimming, and reading a missing transcript yields the empty string. -/
theorem claim_C9 (d : Bool) (store : Option String) (raw : String) :
    (pyStrip raw = "" → save_ref_text d store raw = store) ∧
      on_sample_changed none = "" := by
  constructor
  · intro h
    unfold save_ref_text
    rw [if_neg]
    intro hc
    exact hc.1 h
  · rfl

/-- Witness for C9 at a whitespace-only text. -/
theorem claim_C9_witness :
    pyStrip "   " = "" ∧ save_ref_text true (some "x") "   " = some "x" ∧
      on_sample_changed none = "" := by
  have h : pyStrip "   " = "" := by decide
  exact ⟨h, (claim_C9 true (some "x") "   ").1 h, (claim_C9 true (some "x") "   ").2⟩

/-- C10: `list_samples` only ever returns names with the `.wav`
extension, so sibling `.txt` transcript files never appear in it. -/
theorem claim_C10 (d : Bool) (files : List String) (name : String) :
    (name ∈ list_samples d files → hasSuffixB ".wav" name = true) ∧
    (hasSuffixB ".txt" name = true → name ∉ list_samples d files) := by
  refine ⟨mem_list_samples_wav d files name, ?_⟩
  intro ht hmem
  have hw := mem_list_samples_wav d files name hmem
  rw [hasSuffixB_txt_not_wav name ht] at hw
  exact Bool.false_ne_true hw

/-- Witness for C10: a `.wav` member and a `.txt` non-member of a
concrete directory listing. -/
theorem claim_C10_witness :
    hasSuffixB ".wav" "b.wav" = true ∧
      "a.txt" ∉ list_samples true ["b.wav", "a.txt"] :=
  ⟨(claim_C10 true ["b.wav", "a.txt"] "b.wav").1 (by decide),
   (claim_C10 true ["b.wav", "a.txt"] "a.txt").2 (by decide)⟩

/-- C7: `list_samples` is lexicographically sorted and empty without a
storage directory; the refresh selection is the last entry of the
listing, which is the new recording whenever the new name is
lexicographically greatest (as timestamp names are). -/
theorem claim_C7 (d : Bool) (files : List String) (newName : String) :
    strSorted (list_samples d files) ∧
    (d = false → list_samples d files = []) ∧
    (∀ hne : list_samples d files ≠ [],
      refresh_selected d files = some ((list_samples d files).getLast hne)) ∧
    (d = true → newName ∈ files → hasSuffixB ".wav" newName = true →
      (∀ f ∈ files, hasSuffixB ".wav" f = true → strLeB f newName = true) →
      refresh_selected d files = some newName) := by
  have hsorted : strSorted (list_samples d files) := by
    unfold list_samples
    cases d with
    | false => simp [strSorted]
    | true =>
      rw [if_pos rfl]
      exact sorted_sortStrings _
  have hlast : ∀ hne : list_samples d files ≠ [],
      refresh_selected d files = some ((list_samples d files).getLast hne) := by
    intro hne
    unfold refresh_selected populate_samples
    rw [if_neg (by simpa [List.isEmpty_iff] using hne)]
    exact List.getLast?_eq_getLast _ hne
  refine ⟨hsorted, ?_, hlast, ?_⟩
  · intro h
    subst h
    rfl
  · intro hd hmem hwav hmax
    subst hd
    have hmem' : newName ∈ list_samples true files := by
      unfold list_samples
      rw [if_pos rfl, mem_sortStrings]
      exact List.mem_filter.mpr ⟨hmem, hwav⟩
    have hne : list_samples true files ≠ [] := List.ne_nil_of_mem hmem'
    rw [hlast hne]
    congr 1
    apply sorted_getLast_eq _ hsorted _ hmem'
    intro y hy
    have hyfiles : y ∈ files ∧ hasSuffixB ".wav" y = true := by
      unfold list_samples at hy
      rw [if_pos rfl, mem_sortStrings] at hy
      exact List.mem_filter.mp hy
    exact hmax y hyfiles.1 hyfiles.2

/-- Witness for C7: a directory with two timestamp samples and a
transcript file; the refresh selection picks the newer sample. -/
theorem claim_C7_witness :
    list_samples false ["x.wav"] = [] ∧
      refresh_selected true ["20240102_000000.wav", "20240101_000000.wav", "a.txt"] =
        some "20240102_000000.wav" :=
  ⟨(claim_C7 false ["x.wav"] "x.wav").2.1 rfl,
   (claim_C7 true ["20240102_000000.wav", "20240101_000000.wav", "a.txt"]
      "20240102_000000.wav").2.2.2 rfl (by decide) (by decide) (by decide)⟩

/-- C4: stopping with zero chunks writes no file and reports the normal
`Ready` status; otherwise exactly one mono 16-bit wave file at 24000 Hz
is produced, with as many samples as the captured chunks held and a
timestamp-derived name. -/
theorem claim_C4 (frames : List (List ℚ)) (now : DateTime6) :
    (frames = [] → stop_recording frames now = { file := none, statusText := "Ready" }) ∧
    (frames ≠ [] → ∃ wf : WavFile,
      (stop_recording frames now).file = some wf ∧
      wf.nchannels = 1 ∧ wf.sampwidth = 2 ∧ wf.framerate = SAMPLE_RATE ∧
      wf.samples.length = (frames.map List.length).sum ∧
      wf.filename = formatTs now ++ ".wav") := by
  constructor
  · intro h
    subst h
    rfl
  · intro h
    have hstop : stop_recording frames now =
        { file := some { filename := formatTs now ++ ".wav", nchannels := 1, sampwidth := 2,
                         framerate := SAMPLE_RATE,
                         samples := frames.flatten.map sampleToInt16 },
          statusText := "Saved " ++ (formatTs now ++ ".wav") } := by
      unfold stop_recording
      rw [if_neg (by simpa [List.isEmpty_iff] using h)]
    refine ⟨_, by rw [hstop], rfl, rfl, rfl, ?_, rfl⟩
    show (frames.flatten.map sampleToInt16).length = (frames.map List.length).sum
    rw [List.length_map, List.length_flatten]

/-- Witness for C4 at an empty and at a two-chunk recording. -/
theorem claim_C4_witness :
    stop_recording [] ⟨2024, 1, 2, 3, 4, 5⟩ = { file := none, statusText := "Ready" } ∧
    (∃ wf : WavFile,
      (stop_recording [[(1 : ℚ)/2], [0, 0]] ⟨2024, 1, 2, 3, 4, 5⟩).file = some wf ∧
      wf.nchannels = 1 ∧ wf.sampwidth = 2 ∧ wf.framerate = SAMPLE_RATE ∧
      wf.samples.length = ([[(1 : ℚ)/2], [0, 0]].map List.length).sum ∧
      wf.filename = formatTs ⟨2024, 1, 2, 3, 4, 5⟩ ++ ".wav") :=
  ⟨(claim_C4 [] ⟨2024, 1, 2, 3, 4, 5⟩).1 rfl,
   (claim_C4 [[(1 : ℚ)/2], [0, 0]] ⟨2024, 1, 2, 3, 4, 5⟩).2 (by simp)⟩

/-- C5 counterexample: the code converts by C-cast (truncation toward
zero), not by rounding: at sample value 1/2 (exact in float32) the code
stores 16383 while round-after-scale gives 16384. -/
theorem claim_C5_counterexample :
    sampleToInt16 (1/2) = 16383 ∧ round ((1/2 : ℚ) * 32767) = 16384 := by
  constructor
  · unfold sampleToInt16 truncQ
    rw [if_pos (by norm_num)]
    norm_num
  · rw [round_eq]
    norm_num

/-- C5 (amended): each sample is converted by scaling by 32767 and then
truncating toward zero (no rounding, no explicit clamping); for inputs
in [-1, 1] the result nevertheless stays within the int16 value range. -/
theorem claim_C5_amended (x : ℚ) :
    sampleToInt16 x = truncQ (x * 32767) ∧
    (-1 ≤ x → x ≤ 1 → -32767 ≤ sampleToInt16 x ∧ sampleToInt16 x ≤ 32767) := by
  refine ⟨rfl, ?_⟩
  intro h1 h2
  unfold sampleToInt16 truncQ
  by_cases h0 : (0 : ℚ) ≤ x * 32767
  · rw [if_pos h0]
    constructor
    · have hnn : (0 : ℤ) ≤ ⌊x * 32767⌋ := Int.floor_nonneg.mpr h0
      omega
    · have hx : x * 32767 ≤ 32767 := by nlinarith
      calc ⌊x * 32767⌋ ≤ ⌊(32767 : ℚ)⌋ := Int.floor_le_floor hx
        _ = 32767 := by norm_num
  · rw [if_neg h0]
    push_neg at h0
    constructor
    · have hx : ((-32767 : ℤ) : ℚ) ≤ x * 32767 := by push_cast; nlinarith
      have hceil := Int.ceil_le_ceil hx
      rwa [Int.ceil_intCast] at hceil
    · have hc : ⌈x * 32767⌉ ≤ ⌈(0 : ℚ)⌉ := Int.ceil_le_ceil (le_of_lt h0)
      simp at hc
      omega

/-- Witness for C5 at the sample value 1/2. -/
theorem claim_C5_witness :
    sampleToInt16 (1/2) = truncQ ((1/2 : ℚ) * 32767) ∧
      -32767 ≤ sampleToInt16 ((1 : ℚ)/2) ∧ sampleToInt16 ((1 : ℚ)/2) ≤ 32767 :=
  ⟨(claim_C5_amended (1/2)).1, (claim_C5_amended (1/2)).2 (by norm_num) (by norm_num)⟩

/-- C3 counterexample: with the Say control enabled and text that is
empty after trimming, the submission is rejected but silently — no
user-visible message is shown, against the claim that every rejection
surfaces one. -/
theorem claim_C3_counterexample :
    on_say { rawText := "   ", sayEnabled := true, mode := "CustomVoice",
             sampleExists := true, rawRefText := "x" } = SayResult.noop none := by
  decide

/-- C3 (amended): with the Say control enabled, a submission is rejected
as a no-op (no worker, no model call) exactly when the text is empty
after trimming, or clone mode is selected and the reference sample is
missing or the reference transcript is empty after trimming; the
clone-mode rejections show a user-visible message while the empty-text
rejection shows none. -/
theorem claim_C3_amended (env : SayEnv) (hen : env.sayEnabled = true) :
    (isDispatched (on_say env) = false ↔ rejectCond env) ∧
    (pyStrip env.rawText = "" → on_say env = SayResult.noop none) ∧
    (pyStrip env.rawText ≠ "" → env.mode = "VoiceClone" → env.sampleExists = false →
      on_say env = SayResult.noop (some "Record a sample first")) ∧
    (pyStrip env.rawText ≠ "" → env.mode = "VoiceClone" → env.sampleExists = true →
      pyStrip env.rawRefText = "" →
      on_say env = SayResult.noop (some "Enter reference text")) := by
  by_cases ht : pyStrip env.rawText = ""
  · have hrun : on_say env = SayResult.noop none := by
      unfold on_say
      rw [if_pos (Or.inl ht)]
    refine ⟨?_, fun _ => hrun, fun hc => absurd ht hc, fun hc => absurd ht hc⟩
    rw [hrun]
    simp [isDispatched, rejectCond, ht]
  · have hcond : ¬(pyStrip env.rawText = "" ∨ env.sayEnabled = false) := by
      simp [ht, hen]
    by_cases hm : env.mode = "VoiceClone"
    · by_cases hs : env.sampleExists = false
      · have hrun : on_say env = SayResult.noop (some "Record a sample first") := by
          unfold on_say
          rw [if_neg hcond, if_pos hm, if_pos hs]
        refine ⟨?_, fun hc => absurd hc ht, fun _ _ _ => hrun, ?_⟩
        · rw [hrun]
          simp [isDispatched, rejectCond, hm, hs]
        · intro _ _ hs2 _
          rw [hs2] at hs
          exact absurd hs (by simp)
      · have hs' : env.sampleExists = true := by
          revert hs
          cases env.sampleExists <;> simp
        by_cases hr : pyStrip env.rawRefText = ""
        · have hrun : on_say env = SayResult.noop (some "Enter reference text") := by
            unfold on_say
            rw [if_neg hcond, if_pos hm, if_neg (by simp [hs']), if_pos hr]
          refine ⟨?_, fun hc => absurd hc ht,
                  fun _ _ hsf => absurd (hs'.symm.trans hsf) (by simp),
                  fun _ _ _ _ => hrun⟩
          rw [hrun]
          simp [isDispatched, rejectCond, hm, hr]
        · have hrun : on_say env =
              SayResult.dispatch env.mode (pyStrip env.rawText) (some (pyStrip env.rawRefText)) := by
            unfold on_say
            rw [if_neg hcond, if_pos hm, if_neg (by simp [hs']), if_neg hr]
          refine ⟨?_, fun hc => absurd hc ht,
                  fun _ _ hsf => absurd (hs'.symm.trans hsf) (by simp),
                  fun _ _ _ hrr => absurd hrr hr⟩
          rw [hrun]
          simp [isDispatched, rejectCond, ht, hs', hr]
    · have hrun : on_say env = SayResult.dispatch env.mode (pyStrip env.rawText) none := by
        unfold on_say
        rw [if_neg hcond, if_neg hm]
      refine ⟨?_, fun hc => absurd hc ht, fun _ hmm => absurd hmm hm, fun _ hmm => absurd hmm hm⟩
      rw [hrun]
      simp [isDispatched, rejectCond, ht, hm]

/-- Witness for C3 at a clone-mode submission with a missing sample. -/
theorem claim_C3_witness :
    on_say { rawText := "hi", sayEnabled := true, mode := "VoiceClone",
             sampleExists := false, rawRefText := "" } =
      SayResult.noop (some "Record a sample first") :=
  (claim_C3_amended _ rfl).2.2.1 (by decide) rfl rfl

/-- C6 counterexample: with an empty model cache a synthesis request
fails on the cache lookup (the KeyError path) instead of lazily loading
the model — no playback occurs although synthesis output was
available. -/
theorem claim_C6_counterexample :
    generate { models := [],
               synthResult := Except.ok [{ audio := [0], sample_rate := 24000 }],
               playRaises := none } "CustomVoice" =
      { sigs := [Sig.status ("Error: " ++ keyErrorText "CustomVoice"), Sig.done],
        plays := [] } := by
  rfl

/-- C6 (amended): a mode change starts a load exactly when the mode is
not yet cached, a cached mode is never reloaded (the cache is unchanged),
and the synthesis step only looks up the cache — a missing mode makes
the request fail rather than load. -/
theorem claim_C6_amended (cache : List String) (mode : String) :
    (on_mode_changed cache mode = true ↔ mode ∉ cache) ∧
    (mode ∈ cache → load_model cache mode = cache) ∧
    (∀ env : GenEnv, mode ∉ env.models →
      generate env mode =
        { sigs := [Sig.status ("Error: " ++ keyErrorText mode), Sig.done], plays := [] }) := by
  refine ⟨?_, ?_, ?_⟩
  · unfold on_mode_changed
    by_cases h : mode ∈ cache <;> simp [h]
  · intro h
    unfold load_model
    rw [if_pos h]
  · intro env h
    unfold generate
    rw [if_neg h]

/-- Witness for C6 at concrete caches and a concrete cache-missing
generation request. -/
theorem claim_C6_witness :
    (on_mode_changed ["CustomVoice"] "VoiceClone" = true ↔
      "VoiceClone" ∉ ["CustomVoice"]) ∧
    load_model ["CustomVoice"] "CustomVoice" = ["CustomVoice"] ∧
    generate { models := ["CustomVoice"], synthResult := Except.error "boom",
               playRaises := none } "VoiceDesign" =
      { sigs := [Sig.status ("Error: " ++ keyErrorText "VoiceDesign"), Sig.done],
        plays := [] } :=
  ⟨(claim_C6_amended ["CustomVoice"] "VoiceClone").1,
   (claim_C6_amended ["CustomVoice"] "CustomVoice").2.1 (by decide),
   (claim_C6_amended ["CustomVoice"] "VoiceDesign").2.2 _ (by decide)⟩

/-- C1 counterexample: two segments with sample rates 100 and 200; the
first segment's rate is 100, yet the concatenated buffer is played at
200 — the rate of the last segment, not the first. -/
theorem claim_C1_counterexample :
    (List.head? [({ audio := [0], sample_rate := 100 } : Segment),
                 { audio := [1], sample_rate := 200 }]).map Segment.sample_rate = some 100 ∧
    generate { models := ["CustomVoice"],
               synthResult := Except.ok [{ audio := [0], sample_rate := 100 },
                                         { audio := [1], sample_rate := 200 }],
               playRaises := none } "CustomVoice" =
      { sigs := [Sig.status "Playing...", Sig.done], plays := [([0, 1], 200)] } ∧
    (100 : ℕ) ≠ 200 := by
  refine ⟨rfl, rfl, by decide⟩

/-- C1 (amended): for a non-empty synthesis result the orchestrator plays
the in-order concatenation of all segments' sample data at the sample
rate of the LAST segment; when all segments share one rate (as the code
assumes) this coincides with the first segment's rate. -/
theorem claim_C1_amended (env : GenEnv) (mode : String) (segs : List Segment)
    (hm : mode ∈ env.models) (hs : env.synthResult = Except.ok segs) (hne : segs ≠ []) :
    (generate env mode).plays =
      [((segs.map Segment.audio).flatten, (segs.getLast?.map Segment.sample_rate).getD 0)] ∧
    (∀ r : ℕ, (∀ s ∈ segs, s.sample_rate = r) →
      (segs.getLast?.map Segment.sample_rate).getD 0 = r) := by
  constructor
  · unfold generate
    rw [if_pos hm, hs]
    have hie : segs.isEmpty = false := by simpa [List.isEmpty_iff] using hne
    cases hp : env.playRaises <;> simp [hie, hp]
  · intro r hr
    rw [List.getLast?_eq_getLast segs hne]
    simp [hr _ (List.getLast_mem hne)]

/-- Witness for C1 at a concrete two-segment result with one shared
rate. -/
theorem claim_C1_witness :
    (generate { models := ["CustomVoice"],
                synthResult := Except.ok [{ audio := [0], sample_rate := 24000 },
                                          { audio := [1], sample_rate := 24000 }],
                playRaises := none } "CustomVoice").plays = [([0, 1], 24000)] :=
  ((claim_C1_amended
      { models := ["CustomVoice"],
        synthResult := Except.ok [{ audio := [0], sample_rate := 24000 },
                                  { audio := [1], sample_rate := 24000 }],
        playRaises := none }
      "CustomVoice"
      [{ audio := [0], sample_rate := 24000 }, { audio := [1], sample_rate := 24000 }]
      (by decide) rfl (by simp)).1).trans rfl

/-- C2: every run of the generation worker emits the terminal `done`
exactly once and as its last signal; each failure mode (cache miss,
synthesis raise, playback raise) emits exactly one `Error: `-prefixed
status carrying the raised message just before `done`; a synthesis
failure performs no playback call; a fully successful run emits no
error status. -/
theorem claim_C2 (env : GenEnv) (mode : String) :
    ((generate env mode).sigs.filter isDone).length = 1 ∧
    (generate env mode).sigs.getLast? = some Sig.done ∧
    (mode ∉ env.models →
      generate env mode =
        { sigs := [Sig.status ("Error: " ++ keyErrorText mode), Sig.done], plays := [] }) ∧
    (∀ e, mode ∈ env.models → env.synthResult = Except.error e →
      generate env mode = { sigs := [Sig.status ("Error: " ++ e), Sig.done], plays := [] }) ∧
    (∀ segs, mode ∈ env.models → env.synthResult = Except.ok segs → segs ≠ [] →
      env.playRaises = none →
      (generate env mode).sigs = [Sig.status "Playing...", Sig.done]) ∧
    (∀ segs e, mode ∈ env.models → env.synthResult = Except.ok segs → segs ≠ [] →
      env.playRaises = some e →
      (generate env mode).sigs =
        [Sig.status "Playing...", Sig.status ("Error: " ++ e), Sig.done]) := by
  have hshape : ∃ pre : List Sig, (generate env mode).sigs = pre ++ [Sig.done] ∧
      ∀ s ∈ pre, isDone s = false := by
    unfold generate
    by_cases hm : mode ∈ env.models
    · rw [if_pos hm]
      cases env.synthResult with
      | error e => exact ⟨[Sig.status ("Error: " ++ e)], rfl, by simp [isDone]⟩
      | ok segs =>
        by_cases hie : segs.isEmpty
        · refine ⟨[Sig.status ("Error: " ++ concatErrorText)], ?_, by simp [isDone]⟩
          simp [hie]
        · cases hp : env.playRaises with
          | some e =>
            refine ⟨[Sig.status "Playing...", Sig.status ("Error: " ++ e)], ?_, ?_⟩
            · simp [hie]
            · intro s hs
              rcases List.mem_cons.mp hs with rfl | hs2
              · rfl
              · rcases List.mem_cons.mp hs2 with rfl | hs3
                · rfl
                · simp at hs3
          | none =>
            refine ⟨[Sig.status "Playing..."], ?_, by simp [isDone]⟩
            simp [hie]
    · rw [if_neg hm]
      exact ⟨[Sig.status ("Error: " ++ keyErrorText mode)], rfl, by simp [isDone]⟩
  obtain ⟨pre, hsig, hpre⟩ := hshape
  refine ⟨?_, ?_, ?_, ?_, ?_, ?_⟩
  · rw [hsig, List.filter_append]
    have hnil : pre.filter isDone = [] :=
      List.filter_eq_nil_iff.mpr (by intro a ha; simp [hpre a ha])
    simp [hnil, isDone]
  · rw [hsig, List.getLast?_concat]
  · intro h
    unfold generate
    rw [if_neg h]
  · intro e hm hsr
    unfold generate
    rw [if_pos hm, hsr]
  · intro segs hm hsr hne hp
    unfold generate
    rw [if_pos hm, hsr]
    have hie : segs.isEmpty = false := by simpa [List.isEmpty_iff] using hne
    simp [hie, hp]
  · intro segs e hm hsr hne hp
    unfold generate
    rw [if_pos hm, hsr]
    have hie : segs.isEmpty = false := by simpa [List.isEmpty_iff] using hne
    simp [hie, hp]

/-- Witness for C2 at a concrete request whose synthesis raises. -/
theorem claim_C2_witness :
    ((generate { models := ["CustomVoice"], synthResult := Except.error "boom",
                 playRaises := none } "CustomVoice").sigs.filter isDone).length = 1 ∧
    generate { models := ["CustomVoice"], synthResult := Except.error "boom",
               playRaises := none } "CustomVoice" =
      { sigs := [Sig.status ("Error: " ++ "boom"), Sig.done], plays := [] } :=
  ⟨(claim_C2 { models := ["CustomVoice"], synthResult := Except.error "boom",
               playRaises := none } "CustomVoice").1,
   (claim_C2 { models := ["CustomVoice"], synthResult := Except.error "boom",
               playRaises := none } "CustomVoice").2.2.2.1 "boom" (by decide) rfl⟩

end QwenTTS
